import Mathlib

/-!
Verification of the `truenas-auto-replication` maintenance script (`src/main.py`).

Shallow embedding conventions used throughout this file:

* Python dictionaries are modelled as association lists (`List (String × α)`)
  together with `dictInsert` (insert-or-overwrite, preserving the position of an
  existing key, as CPython dicts do) and `dictGet` (first match).  A Python
  `d[k]` subscript that can raise `KeyError` is modelled by `pyGet`, which
  returns `Except PyErr`.
* `subprocess.run` results are modelled by the `SubprocResult` record carrying
  the exit status and the captured output; the environment supplies it.
* Python floats are modelled as exact rationals (`ℚ`); `divmod` on
  non-negative floats is floor division with remainder, and the `:.1f` format
  specifier is modelled as round-half-to-even at one decimal (`fmtF1`).
* `json.loads` (used by the job query) is modelled as an abstract decoder
  parameter `decode : String → Except PyErr (List Repl)`; its result shape is
  the only thing the script inspects (`id`, `name`, `state.state`).
* String and rational operations are kept kernel-evaluable: Python string
  primitives (`strip`, `split`, `lower`, `startswith`, ...) are implemented
  here over `List Char`, and the irreducibility markers on the `Rat`
  arithmetic are relaxed locally, so that concrete runs reduce by `decide`.
* In the orchestration model (`main`), the environment provides the successive
  already-decoded successful outputs of `replication.query` as a script
  (`Env.script`); the failure behaviour of the individual invocations is proved
  separately on the per-call functions.  External invocations are modelled as
  instantaneous, so the wall clock advances only through `time.sleep`; the
  observable actions of a run are collected in a trace of `Event`s.
-/

/-- Errors a Python run of the script can raise.  `keyError none` models
`KeyError: None` (subscripting with an unset environment variable). -/
inductive PyErr where
  | fileNotFoundError
  | valueError
  | indexError
  | keyError (key : Option String)
  | processError (code : Int)
deriving DecidableEq, Repr

attribute [local semireducible] Rat.add Rat.sub Rat.mul Rat.inv Rat.ofScientific

/-- Insert-or-overwrite into an association list, keeping the position of an
existing key (CPython dict update semantics). -/
def dictInsert {α : Type} : List (String × α) → String → α → List (String × α)
  | [], k, v => [(k, v)]
  | (k', v') :: d, k, v => if k' = k then (k, v) :: d else (k', v') :: dictInsert d k v

/-- Lookup in an association list (first match), `d.get(k)` flavour. -/
def dictGet {α : Type} (d : List (String × α)) (k : String) : Option α :=
  (d.find? (fun p => p.1 = k)).map (fun p => p.2)

/-- Python `d[k]`: raises `KeyError` when the key is absent. -/
def pyGet {α : Type} (d : List (String × α)) (k : String) : Except PyErr α :=
  match dictGet d k with
  | some v => Except.ok v
  | none => Except.error (PyErr.keyError (some k))

/-- The dictionary built by inserting a list of key/value pairs in order
(dict-comprehension semantics: a later duplicate key overwrites). -/
def dictOfPairs {α : Type} (ps : List (String × α)) : List (String × α) :=
  ps.foldl (fun d p => dictInsert d p.1 p.2) []

/-- The result object of `subprocess.run(..., capture_output=True, text=True)`:
exit status plus captured output streams. -/
structure SubprocResult where
  returncode : Int
  stdout : String
  stderr : String
deriving DecidableEq, Repr

/-- A replication job record as the script reads it from the decoded JSON:
`r["id"]`, `r["name"]` and the nested `r["state"]["state"]`. -/
structure Repl where
  id : Int
  name : String
  state : String
deriving DecidableEq, Repr

/-- Python's whitespace set for `str.strip()` and `str.split()`:
space, tab, newline, carriage return, vertical tab, form feed. -/
def pyIsSpace (c : Char) : Bool :=
  c = Char.ofNat 32 ∨ c = Char.ofNat 9 ∨ c = Char.ofNat 10 ∨
  c = Char.ofNat 13 ∨ c = Char.ofNat 11 ∨ c = Char.ofNat 12

/-- Python `str.strip()` with no argument: remove leading and trailing
whitespace. -/
def py_strip (s : String) : String :=
  ⟨((s.data.dropWhile pyIsSpace).reverse.dropWhile pyIsSpace).reverse⟩

/-- Split a character list at every character satisfying `p`, keeping empty
pieces (the behaviour of Python `str.split(sep)` for a one-character `sep`
when `p` tests equality with it). -/
def py_split_pred (p : Char → Bool) : List Char → List (List Char)
  | [] => [[]]
  | c :: cs =>
    match py_split_pred p cs with
    | [] => [[]]
    | g :: gs => if p c then [] :: g :: gs else (c :: g) :: gs

/-- Python `s.split(sep)` for a single-character separator: the empty string
yields `[""]`, and empty pieces are kept. -/
def py_split_on (s : String) (sep : Char) : List String :=
  (py_split_pred (fun c => c = sep) s.data).map (fun g => ⟨g⟩)

/-- Python `str.split()` with no argument: split on runs of whitespace,
discarding empty pieces. -/
def pySplitWs (s : String) : List String :=
  ((py_split_pred pyIsSpace s.data).filter (fun g => g ≠ [])).map (fun g => ⟨g⟩)

/-- Python `sep.join(parts)`. -/
def py_join (sep : String) : List String → String
  | [] => ""
  | a :: as => as.foldl (fun acc x => acc ++ sep ++ x) a

/-- Python `str.lower()` (the header names lowered by the pool inspector are
ASCII). -/
def py_lower (s : String) : String :=
  ⟨s.data.map Char.toLower⟩

/-- Python `str.startswith(p)`. -/
def py_startsWith (s p : String) : Bool :=
  s.data.take p.data.length = p.data

/-- Python `str.endswith(p)`. -/
def py_endsWith (s p : String) : Bool :=
  s.data.drop (s.data.length - p.data.length) = p.data

/-- The lines of the pool tool's output: `result.stdout.strip().split('\n')`
(src/main.py line 82); never empty, since splitting the empty string yields
one empty piece. -/
def py_lines (s : String) : List String :=
  py_split_on (py_strip s) (Char.ofNat 10)

/-- `query_replications` (src/main.py lines 47-55): run
`midclt call replication.query`; on a non-zero exit status print diagnostics and
raise, otherwise decode the JSON on stdout.  The JSON decoding is the abstract
`decode` parameter. -/
def query_replications (decode : String → Except PyErr (List Repl))
    (result : SubprocResult) : Except PyErr (List Repl) :=
  if result.returncode ≠ 0 then Except.error (PyErr.processError result.returncode)
  else decode result.stdout

/-- `start_replication` (src/main.py lines 68-74): run
`midclt call replication.run <id>`; raise on a non-zero exit status. -/
def start_replication (result : SubprocResult) : Except PyErr Unit :=
  if result.returncode ≠ 0 then Except.error (PyErr.processError result.returncode)
  else Except.ok ()

/-- `get_running_replications` (src/main.py lines 58-59) applied to one decoded
query result: keep the jobs whose `state.state` equals `"RUNNING"`. -/
def get_running_replications (jobs : List Repl) : List Repl :=
  jobs.filter (fun r => r.state = "RUNNING")

/-- `wait_for_running_replications` (src/main.py lines 62-65) over a script of
successive query results: while the current query has a job in the RUNNING
state, sleep 5 seconds and query again.  Returns the list of performed sleep
durations and the unconsumed remainder of the script; `none` when the script is
exhausted while jobs are still running (the real loop would keep polling). -/
def wait_for_running_replications : List (List Repl) → Option (List ℚ × List (List Repl))
  | [] => none
  | q :: rest =>
    if (get_running_replications q).length > 0 then
      match wait_for_running_replications rest with
      | none => none
      | some (sleeps, rem) => some ((5 : ℚ) :: sleeps, rem)
    else
      some ([], rest)

/-- First whitespace-separated token of a data row (`values[0]`; total version,
used only on rows already known to be non-empty). -/
def firstTok (row : String) : String :=
  (pySplitWs row).headD ""

/-- The per-row record
`{header.lower(): value for header, value in zip(headers, values)}`
(src/main.py line 91): `zip` truncates to the shorter list. -/
def rowRecord (headers values : List String) : List (String × String) :=
  dictOfPairs ((headers.zip values).map (fun p => (py_lower p.1, p.2)))

/-- One iteration of the row loop in `get_zpool_usage` (src/main.py lines
88-92): `values[0]` raises `IndexError` on an empty row, otherwise the row's
record is inserted under the first column's value. -/
def zpool_step (headers : List String)
    (d : List (String × List (String × String))) (pool : String) :
    Except PyErr (List (String × List (String × String))) :=
  match pySplitWs pool with
  | [] => Except.error PyErr.indexError
  | name :: _ => Except.ok (dictInsert d name (rowRecord headers (pySplitWs pool)))

/-- `get_zpool_usage` (src/main.py lines 77-94): parse
`result.stdout.strip().split('\n')` as a header line plus data rows and build
the pool-name-keyed dictionary of per-row records.  The exit status of the
`zpool list` invocation is never inspected. -/
def get_zpool_usage (result : SubprocResult) :
    Except PyErr (List (String × List (String × String))) :=
  let lines := py_lines result.stdout
  let headers := pySplitWs (lines.headD "")
  let pools := lines.drop 1
  pools.foldlM (zpool_step headers) []

/-- Round a rational to the nearest integer, ties to even (the rounding used by
Python's fixed-point float formatting). -/
def roundHalfEven (q : ℚ) : ℤ :=
  let f := ⌊q⌋
  if q - f < 1 / 2 then f
  else if q - f > 1 / 2 then f + 1
  else if f % 2 = 0 then f else f + 1

/-- Python `f'{x:.1f}'` for the non-negative seconds component: one decimal
digit, round half to even. -/
def fmtF1 (q : ℚ) : String :=
  let n := roundHalfEven (10 * q)
  toString (n / 10) ++ "." ++ toString (n % 10)

/-- Hours component of `format_time` (src/main.py line 102):
`divmod(seconds, 3600)` quotient. -/
def fmt_hours (s : ℚ) : ℤ := ⌊s / 3600⌋

/-- Remainder after removing whole hours (`divmod(seconds, 3600)` remainder). -/
def fmt_remainder (s : ℚ) : ℚ := s - 3600 * fmt_hours s

/-- Minutes component of `format_time` (src/main.py line 103). -/
def fmt_minutes (s : ℚ) : ℤ := ⌊fmt_remainder s / 60⌋

/-- Seconds component of `format_time` (src/main.py line 103). -/
def fmt_secs (s : ℚ) : ℚ := fmt_remainder s - 60 * fmt_minutes s

/-- The `time_components` list built by `format_time` (src/main.py lines
105-111): hours and minutes when positive, and the seconds component when it is
positive or when nothing else was emitted. -/
def time_components (s : ℚ) : List String :=
  let c1 : List String :=
    if fmt_hours s > 0 then [toString (fmt_hours s) ++ " hours"] else []
  let c2 : List String :=
    if fmt_minutes s > 0 then [toString (fmt_minutes s) ++ " minutes"] else []
  let cs := c1 ++ c2
  cs ++ (if fmt_secs s > 0 ∨ cs = [] then [fmtF1 (fmt_secs s) ++ " seconds"] else [])

/-- `format_time` (src/main.py lines 101-116): join the components with commas
and a final " and ". -/
def format_time (s : ℚ) : String :=
  let tc := time_components s
  if tc.length > 1 then
    py_join ", " tc.dropLast ++ " and " ++ tc.getLastD ""
  else
    tc.headD ""

/-- Components list as the specification words it for claim C8: exactly the
nonzero components among hours, minutes and seconds. -/
def nonzero_components (s : ℚ) : List String :=
  (if fmt_hours s > 0 then [toString (fmt_hours s) ++ " hours"] else []) ++
  (if fmt_minutes s > 0 then [toString (fmt_minutes s) ++ " minutes"] else []) ++
  (if fmt_secs s > 0 then [fmtF1 (fmt_secs s) ++ " seconds"] else [])

/-- Observable actions of an orchestrator run, in order of occurrence. -/
inductive Event where
  | sleep (d : ℚ)
  | startRepl (id : Int)
  | checkNoShutdown
  | notify (msg : String)
  | shutdown
deriving DecidableEq, Repr

/-- Total sleeping time recorded in a trace; with instantaneous external
invocations this is the value of `time.time() - start`. -/
def sleepSum (evs : List Event) : ℚ :=
  (evs.filterMap (fun e => match e with | Event.sleep d => some d | _ => none)).sum

/-- The job loop of `main` (src/main.py lines 136-140): for each queried
replication in order, trigger its run and then wait for the completion poll to
exit, consuming query results from the script.  Returns the emitted events and
the unconsumed remainder of the script. -/
def run_jobs : List Repl → List (List Repl) → Option (List Event × List (List Repl))
  | [], script => some ([], script)
  | r :: rs, script =>
    match wait_for_running_replications script with
    | none => none
    | some (sleeps, rest) =>
      match run_jobs rs rest with
      | none => none
      | some (evs, rest') =>
        some (Event.startRepl r.id :: (sleeps.map Event.sleep ++ evs), rest')

/-- Configuration and environment of one orchestrator run. -/
structure Env where
  /-- Successive decoded outputs of `replication.query`: the first is consumed
  by the initial query, the rest by the completion polls. -/
  script : List (List Repl)
  /-- Whether the `no_shutdown` marker file exists at the single check point. -/
  no_shutdown_exists : Bool
  /-- The result of the `zpool list` invocation. -/
  zpool_result : SubprocResult
  /-- `ZPOOL_NAME` (`none` models an unset environment variable). -/
  zpool_name : Option String
  /-- `MIN_EXECUTION_TIME` (default 90.0). -/
  min_execution_time : ℚ
  /-- `DISCORD_WEBHOOK_URL`; `none` disables notification delivery. -/
  discord_webhook_url : Option String
deriving DecidableEq, Repr

/-- The four pool fields read while composing the report
(src/main.py lines 153-154). -/
structure Fields where
  cap : String
  free : String
  size : String
  health : String
deriving DecidableEq, Repr

/-- Outcome of a completed run: the event trace, the composed notification
message and the sampled shutdown decision. -/
structure Final where
  trace : List Event
  message : String
  perform_shutdown : Bool
deriving DecidableEq, Repr

/-- Pool lookup part of `main` (src/main.py lines 151-154):
`get_zpool_usage()[ZPOOL_NAME]` followed by the `cap`, `free`, `size` and
`health` subscripts. -/
def lookupFields (env : Env) : Except PyErr Fields := do
  let pools ← get_zpool_usage env.zpool_result
  let pool_usage ←
    match env.zpool_name with
    | none => Except.error (PyErr.keyError none)
    | some n => pyGet pools n
  let cap ← pyGet pool_usage "cap"
  let free ← pyGet pool_usage "free"
  let size ← pyGet pool_usage "size"
  let health ← pyGet pool_usage "health"
  pure ⟨cap, free, size, health⟩

/-- The trailer appended to the message when the shutdown will be performed
(src/main.py line 156). -/
def shutdownTrailer : String := "\n\nShutting down the system now."

/-- The report body composed at src/main.py lines 152-154: job count,
formatted elapsed time and the four pool fields (everything before the
conditional shutdown trailer). -/
def mkBase (reps : List Repl) (jobEvents : List Event) (flds : Fields) : String :=
  "Performed `" ++ toString reps.length ++ "` replications in `" ++
    format_time (sleepSum jobEvents) ++ "`.\n" ++
  "Pool usage: `" ++ flds.cap ++ "` (`" ++ flds.free ++ "` free of `" ++
    flds.size ++ "`)\n" ++
  "Health: `" ++ flds.health ++ "`"

/-- The post-loop part of `main` (src/main.py lines 144-163) once the pool
fields are known: top-up sleep to `MIN_EXECUTION_TIME`, single sampling of the
`no_shutdown` marker, message composition, notification and conditional
shutdown. -/
def mkFinal (env : Env) (reps : List Repl) (jobEvents : List Event)
    (flds : Fields) : Final :=
  let elapsed := sleepSum jobEvents
  let topup := max 0 (env.min_execution_time - elapsed)
  let perform_shutdown := !env.no_shutdown_exists
  let base := mkBase reps jobEvents flds
  let discord_message := if perform_shutdown then base ++ shutdownTrailer else base
  { trace :=
      jobEvents ++ [Event.sleep topup, Event.checkNoShutdown] ++
      (match env.discord_webhook_url with
       | none => []
       | some _ => [Event.notify discord_message]) ++
      (if perform_shutdown then [Event.shutdown] else []),
    message := discord_message,
    perform_shutdown := perform_shutdown }

/-- The source's `main` (src/main.py lines 131-163), named `py_main` here only
because Lean reserves `main` for an executable entry point: one initial query,
the sequential job loop, then the report/shutdown phase.  `none` when the query
script is exhausted; a raised error (pool lookup) aborts the run. -/
def py_main (env : Env) : Option (Except PyErr Final) :=
  match env.script with
  | [] => none
  | reps :: script =>
    match run_jobs reps script with
    | none => none
    | some (jobEvents, _) =>
      match lookupFields env with
      | Except.error e => some (Except.error e)
      | Except.ok flds => some (Except.ok (mkFinal env reps jobEvents flds))

/-- File-system state seen by `load_dotenv`: whether `<script dir>/.env`
exists, and its lines when it does. -/
structure FS where
  dotenv_exists : Bool
  dotenv_lines : List String
deriving DecidableEq, Repr

/-- One line of the `.env` parser inside `load_dotenv` (src/main.py lines
16-32): skip blanks and comments, split at the first `=` (raising `ValueError`
when there is none, as tuple unpacking does), strip matching surrounding
quotes, and set the variable. -/
def parse_env_line (env : List (String × String)) (line : String) :
    Except PyErr (List (String × String)) :=
  let l := py_strip line
  if l ≠ "" ∧ ¬ py_startsWith l "#" then
    match py_split_on l (Char.ofNat 61) with
    | [] => Except.error PyErr.valueError
    | [_] => Except.error PyErr.valueError
    | k :: rest =>
      let key := py_strip k
      let value := py_strip (py_join "=" rest)
      let dq := String.singleton (Char.ofNat 34)
      let sq := String.singleton (Char.ofNat 39)
      let value :=
        if py_startsWith value dq ∧ py_endsWith value dq then ⟨value.data.drop 1 |>.dropLast⟩
        else if py_startsWith value sq ∧ py_endsWith value sq then ⟨value.data.drop 1 |>.dropLast⟩
        else value
      Except.ok (dictInsert env key value)
  else
    Except.ok env

/-- `load_dotenv` (src/main.py lines 9-34): raise `FileNotFoundError` when the
`.env` file is absent, otherwise fold the parser over its lines, updating the
process environment. -/
def load_dotenv (fs : FS) (env : List (String × String)) :
    Except PyErr (List (String × String)) :=
  if fs.dotenv_exists then fs.dotenv_lines.foldlM parse_env_line env
  else Except.error PyErr.fileNotFoundError

/-- Run-time inputs of the orchestration that are not environment variables. -/
structure OrchInput where
  script : List (List Repl)
  no_shutdown_exists : Bool
  zpool_result : SubprocResult
deriving DecidableEq, Repr

/-- Module-level program (src/main.py lines 37-41 followed by `main()`):
`load_dotenv()` runs first and an error there aborts the whole program; then
the configuration is read from the updated environment
(`float(...)` on `MIN_EXECUTION_TIME` is the abstract `pyfloat` parameter) and
`main` runs. -/
def run_program (pyfloat : String → Except PyErr ℚ) (fs : FS)
    (env0 : List (String × String)) (orch : OrchInput) :
    Option (Except PyErr Final) :=
  match load_dotenv fs env0 with
  | Except.error e => some (Except.error e)
  | Except.ok env1 =>
    match
      (match dictGet env1 "MIN_EXECUTION_TIME" with
       | none => Except.ok (90 : ℚ)
       | some sv => pyfloat sv) with
    | Except.error e => some (Except.error e)
    | Except.ok minet =>
      py_main
        { script := orch.script,
          no_shutdown_exists := orch.no_shutdown_exists,
          zpool_result := orch.zpool_result,
          zpool_name := dictGet env1 "ZPOOL_NAME",
          min_execution_time := minet,
          discord_webhook_url := dictGet env1 "DISCORD_WEBHOOK_URL" }

/-- The replication id of a run-trigger event, `none` for any other event. -/
def startIdOf : Event → Option Int
  | Event.startRepl i => some i
  | _ => none

/-- A concrete run environment used to witness the orchestrator theorems: one
queried job, one poll observing it RUNNING, then a poll observing nothing
running. -/
def envBase : Env :=
  { script := [[⟨1, "repl", "FINISHED"⟩], [⟨1, "repl", "RUNNING"⟩], []],
    no_shutdown_exists := false,
    zpool_result := ⟨0, "NAME SIZE CAP FREE HEALTH\ntank 2T 42% 1T ONLINE", ""⟩,
    zpool_name := some "tank",
    min_execution_time := 90,
    discord_webhook_url := some "whurl" }

/-- The outcome of `py_main envBase` (suppression marker absent). -/
def mainOutF : Final :=
  { trace := [Event.startRepl 1, Event.sleep 5, Event.sleep 85, Event.checkNoShutdown,
      Event.notify ("Performed `1` replications in `5.0 seconds`.\n" ++
        "Pool usage: `42%` (`1T` free of `2T`)\nHealth: `ONLINE`" ++
        "\n\nShutting down the system now."),
      Event.shutdown],
    message := "Performed `1` replications in `5.0 seconds`.\n" ++
      "Pool usage: `42%` (`1T` free of `2T`)\nHealth: `ONLINE`" ++
      "\n\nShutting down the system now.",
    perform_shutdown := true }

/-- The outcome of `py_main envBase` with the suppression marker present. -/
def mainOutG : Final :=
  { trace := [Event.startRepl 1, Event.sleep 5, Event.sleep 85, Event.checkNoShutdown,
      Event.notify ("Performed `1` replications in `5.0 seconds`.\n" ++
        "Pool usage: `42%` (`1T` free of `2T`)\nHealth: `ONLINE`")],
    message := "Performed `1` replications in `5.0 seconds`.\n" ++
      "Pool usage: `42%` (`1T` free of `2T`)\nHealth: `ONLINE`",
    perform_shutdown := false }

/-- The join rule as the specification words it: components joined with
commas and a final " and ". -/
def spec_join : List String → String
  | [] => ""
  | [a] => a
  | [a, b] => a ++ " and " ++ b
  | a :: b :: c :: rest => a ++ ", " ++ spec_join (b :: c :: rest)

theorem except_bind_ok {α β : Type} (a : α) (f : α → Except PyErr β) :
    (Except.ok a >>= f) = f a := rfl

theorem except_bind_error {α β : Type} (e : PyErr) (f : α → Except PyErr β) :
    ((Except.error e : Except PyErr α) >>= f) = Except.error e := rfl

theorem dictGet_nil {α : Type} (k : String) : dictGet ([] : List (String × α)) k = none := rfl

theorem dictGet_cons {α : Type} (k' k : String) (v : α) (d : List (String × α)) :
    dictGet ((k', v) :: d) k = if k' = k then some v else dictGet d k := by
  by_cases h : k' = k
  · simp [dictGet, List.find?_cons_of_pos, h]
  · simp only [dictGet, if_neg h]
    rw [List.find?_cons_of_neg]
    simp [h]

theorem dictGet_dictInsert_self {α : Type} (d : List (String × α)) (k : String) (v : α) :
    dictGet (dictInsert d k v) k = some v := by
  induction d with
  | nil => simp [dictInsert, dictGet_cons]
  | cons p d ih =>
    obtain ⟨k', v'⟩ := p
    by_cases h : k' = k
    · simp [dictInsert, h, dictGet_cons]
    · simp [dictInsert, h, dictGet_cons, ih]

theorem dictGet_dictInsert_ne {α : Type} (d : List (String × α)) (k' k : String) (v : α)
    (h : k' ≠ k) : dictGet (dictInsert d k' v) k = dictGet d k := by
  induction d with
  | nil => simp [dictInsert, dictGet_cons, h]
  | cons p d ih =>
    obtain ⟨k₀, v₀⟩ := p
    by_cases h₀ : k₀ = k'
    · simp [dictInsert, h₀, dictGet_cons, h]
    · simp only [dictInsert, if_neg h₀, dictGet_cons, ih]

theorem dictGet_foldl_ins_not_mem {α : Type} (ps : List (String × α)) :
    ∀ (d : List (String × α)) (k : String), k ∉ ps.map Prod.fst →
      dictGet (ps.foldl (fun d p => dictInsert d p.1 p.2) d) k = dictGet d k := by
  induction ps with
  | nil => intro d k _; rfl
  | cons p ps ih =>
    intro d k hk
    simp only [List.map_cons, List.mem_cons, not_or] at hk
    simp only [List.foldl_cons]
    rw [ih _ k hk.2, dictGet_dictInsert_ne _ _ _ _ (Ne.symm hk.1)]

theorem dictGet_foldl_ins_mem {α : Type} (ps : List (String × α)) :
    ∀ (d : List (String × α)) (p : String × α), (ps.map Prod.fst).Nodup → p ∈ ps →
      dictGet (ps.foldl (fun d p => dictInsert d p.1 p.2) d) p.1 = some p.2 := by
  induction ps with
  | nil => intro d p _ hp; cases hp
  | cons q ps ih =>
    intro d p hnd hp
    simp only [List.map_cons, List.nodup_cons] at hnd
    rcases List.mem_cons.mp hp with h | h
    · subst h
      simp only [List.foldl_cons]
      rw [dictGet_foldl_ins_not_mem _ _ _ hnd.1, dictGet_dictInsert_self]
    · simp only [List.foldl_cons]
      exact ih _ p hnd.2 h

theorem dictGet_dictOfPairs_not_mem {α : Type} (ps : List (String × α)) (k : String)
    (h : k ∉ ps.map Prod.fst) : dictGet (dictOfPairs ps) k = none := by
  unfold dictOfPairs
  rw [dictGet_foldl_ins_not_mem _ _ _ h]
  rfl

theorem dictGet_dictOfPairs_mem {α : Type} (ps : List (String × α)) (p : String × α)
    (hnd : (ps.map Prod.fst).Nodup) (hp : p ∈ ps) :
    dictGet (dictOfPairs ps) p.1 = some p.2 :=
  dictGet_foldl_ins_mem ps [] p hnd hp

theorem zpool_fold_ok (H : List String) (rows : List String) :
    ∀ d : List (String × List (String × String)),
      (∀ row ∈ rows, pySplitWs row ≠ []) →
      rows.foldlM (zpool_step H) d =
        Except.ok (rows.foldl
          (fun d row => dictInsert d (firstTok row) (rowRecord H (pySplitWs row))) d) := by
  induction rows with
  | nil => intro d _; rfl
  | cons row rows ih =>
    intro d hne
    have hrow : pySplitWs row ≠ [] := hne row (List.mem_cons_self _ _)
    have hrest : ∀ r ∈ rows, pySplitWs r ≠ [] := fun r hr => hne r (List.mem_cons_of_mem _ hr)
    rw [List.foldlM_cons]
    cases hv : pySplitWs row with
    | nil => exact absurd hv hrow
    | cons name vs =>
      have hstep : zpool_step H d row =
          Except.ok (dictInsert d name (rowRecord H (pySplitWs row))) := by
        unfold zpool_step
        rw [hv]
      rw [hstep, except_bind_ok, ih _ hrest, List.foldl_cons]
      have hfst : firstTok row = name := by unfold firstTok; rw [hv]; rfl
      rw [hfst]

theorem get_zpool_usage_ok (result : SubprocResult) (header : String) (rows : List String)
    (hl : py_lines result.stdout = header :: rows)
    (hne : ∀ row ∈ rows, pySplitWs row ≠ []) :
    get_zpool_usage result =
      Except.ok (dictOfPairs (rows.map
        (fun row => (firstTok row, rowRecord (pySplitWs header) (pySplitWs row))))) := by
  unfold get_zpool_usage
  rw [hl]
  simp only [List.headD_cons, List.drop_one, List.tail_cons]
  rw [zpool_fold_ok _ _ _ hne]
  unfold dictOfPairs
  rw [List.foldl_map]

theorem zip_take_len {α β : Type} : ∀ (H : List α) (V : List β),
    H.zip V = H.zip (V.take H.length) := by
  intro H
  induction H with
  | nil => intro V; rfl
  | cons h H ih =>
    intro V
    cases V with
    | nil => rfl
    | cons v vs =>
      simp only [List.zip_cons_cons, List.length_cons, List.take_succ_cons]
      rw [← ih]

theorem map_fst_zip_take {α β : Type} : ∀ (H : List α) (V : List β),
    (H.zip V).map Prod.fst = H.take V.length := by
  intro H
  induction H with
  | nil => intro V; simp
  | cons h H ih =>
    intro V
    cases V with
    | nil => simp
    | cons v vs =>
      simp only [List.zip_cons_cons, List.map_cons, List.length_cons, List.take_succ_cons]
      rw [ih]

/-- C5: for pool-tool output made of a header line and data rows (with fields,
and pairwise distinct pool names), `get_zpool_usage` builds a mapping keyed by
each row's first-column value whose entry is that row's lower-cased-header
record; looking up a listed pool name returns exactly that row's record, while
subscripting with an unlisted name raises a `KeyError` instead of producing a
default. -/
theorem pool_mapping_lookup (result : SubprocResult) (header : String) (rows : List String)
    (hl : py_lines result.stdout = header :: rows)
    (hne : ∀ row ∈ rows, pySplitWs row ≠ [])
    (hnd : (rows.map firstTok).Nodup) :
    ∃ d, get_zpool_usage result = Except.ok d ∧
      (∀ row ∈ rows, dictGet d (firstTok row) =
        some (rowRecord (pySplitWs header) (pySplitWs row))) ∧
      (∀ name, name ∉ rows.map firstTok →
        pyGet d name = Except.error (PyErr.keyError (some name))) := by
  refine ⟨_, get_zpool_usage_ok result header rows hl hne, ?_, ?_⟩
  · intro row hrow
    have hnd' : ((rows.map
        (fun row => (firstTok row, rowRecord (pySplitWs header) (pySplitWs row)))).map
          Prod.fst).Nodup := by
      rw [List.map_map]
      exact hnd
    exact dictGet_dictOfPairs_mem _ _ hnd' (List.mem_map_of_mem _ hrow)
  · intro name hname
    have hnm : name ∉ (rows.map
        (fun row => (firstTok row, rowRecord (pySplitWs header) (pySplitWs row)))).map
          Prod.fst := by
      rw [List.map_map]
      exact hname
    unfold pyGet
    rw [dictGet_dictOfPairs_not_mem _ _ hnm]

/-- C5 witness: the spec's example output listing pools `tank` and `backup`. -/
theorem pool_mapping_lookup_witness :
    ∃ d, get_zpool_usage ⟨0, "NAME SIZE\ntank 1T\nbackup 2T", ""⟩ = Except.ok d ∧
      (∀ row ∈ ["tank 1T", "backup 2T"], dictGet d (firstTok row) =
        some (rowRecord (pySplitWs "NAME SIZE") (pySplitWs row))) ∧
      (∀ name, name ∉ ["tank 1T", "backup 2T"].map firstTok →
        pyGet d name = Except.error (PyErr.keyError (some name))) :=
  pool_mapping_lookup ⟨0, "NAME SIZE\ntank 1T\nbackup 2T", ""⟩ "NAME SIZE"
    ["tank 1T", "backup 2T"] (by decide) (by decide) (by decide)

/-- C10 counterexample: the output `"NAME SIZE\n\ntank 1T"` contains the empty
data row `""`, whose field count 0 differs from the header count 2, and
`get_zpool_usage` raises an `IndexError` on it instead of never raising. -/
theorem pool_row_mismatch_counterexample :
    py_lines "NAME SIZE\n\ntank 1T" = ["NAME SIZE", "", "tank 1T"] ∧
    pySplitWs "" = [] ∧
    pySplitWs "NAME SIZE" = ["NAME", "SIZE"] ∧
    get_zpool_usage ⟨0, "NAME SIZE\n\ntank 1T", ""⟩ = Except.error PyErr.indexError := by
  refine ⟨by decide, by decide, by decide, ?_⟩
  rfl

/-- C10 (amended): on every non-empty data row the pool inspector does not
raise even when the row's field count differs from the header count: `zip`
truncates to the shorter list, so extra fields are dropped and a short row's
record misses the trailing headers' keys, the mismatch surfacing only later as
a `KeyError` when such a key (e.g. `health`) is subscripted.  An entirely empty
data row, by contrast, raises an `IndexError` (see the counterexample). -/
theorem pool_row_truncation (result : SubprocResult) (header : String) (rows : List String)
    (hl : py_lines result.stdout = header :: rows)
    (hne : ∀ row ∈ rows, pySplitWs row ≠ []) :
    (∃ d, get_zpool_usage result = Except.ok d) ∧
    (∀ row ∈ rows,
      rowRecord (pySplitWs header) (pySplitWs row) =
        rowRecord (pySplitWs header) ((pySplitWs row).take (pySplitWs header).length) ∧
      (((pySplitWs header).map py_lower).Nodup →
        ∀ hcol ∈ (pySplitWs header).drop (pySplitWs row).length,
          pyGet (rowRecord (pySplitWs header) (pySplitWs row)) (py_lower hcol) =
            Except.error (PyErr.keyError (some (py_lower hcol))))) := by
  constructor
  · exact ⟨_, get_zpool_usage_ok result header rows hl hne⟩
  · intro row _
    constructor
    · unfold rowRecord
      rw [← zip_take_len]
    · intro hnd hcol hdrop
      have hkey : py_lower hcol ∉
          (((pySplitWs header).zip (pySplitWs row)).map
            (fun p => (py_lower p.1, p.2))).map Prod.fst := by
        have hmap : (((pySplitWs header).zip (pySplitWs row)).map
            (fun p => (py_lower p.1, p.2))).map Prod.fst =
            ((pySplitWs header).take (pySplitWs row).length).map py_lower := by
          rw [← map_fst_zip_take (pySplitWs header) (pySplitWs row)]
          simp [List.map_map, Function.comp]
        rw [hmap]
        have hsplit : (pySplitWs header).map py_lower =
            ((pySplitWs header).take (pySplitWs row).length).map py_lower ++
            ((pySplitWs header).drop (pySplitWs row).length).map py_lower := by
          rw [← List.map_append, List.take_append_drop]
        rw [hsplit] at hnd
        have hdisj := List.disjoint_of_nodup_append hnd
        intro hmem
        exact hdisj hmem (List.mem_map_of_mem _ hdrop)
      unfold rowRecord pyGet
      rw [dictGet_dictOfPairs_not_mem _ _ hkey]

/-- C10 witness: header `NAME SIZE CAP FREE HEALTH` with a short row
`tank 1T` (2 fields for 5 headers): no error is raised, the record misses the
trailing keys, and subscripting `health` raises a `KeyError`. -/
theorem pool_row_truncation_witness :
    (∃ d, get_zpool_usage ⟨0, "NAME SIZE CAP FREE HEALTH\ntank 1T", ""⟩ = Except.ok d) ∧
    (∀ row ∈ ["tank 1T"],
      rowRecord (pySplitWs "NAME SIZE CAP FREE HEALTH") (pySplitWs row) =
        rowRecord (pySplitWs "NAME SIZE CAP FREE HEALTH")
          ((pySplitWs row).take (pySplitWs "NAME SIZE CAP FREE HEALTH").length) ∧
      (((pySplitWs "NAME SIZE CAP FREE HEALTH").map py_lower).Nodup →
        ∀ hcol ∈ (pySplitWs "NAME SIZE CAP FREE HEALTH").drop (pySplitWs row).length,
          pyGet (rowRecord (pySplitWs "NAME SIZE CAP FREE HEALTH") (pySplitWs row))
              (py_lower hcol) =
            Except.error (PyErr.keyError (some (py_lower hcol))))) :=
  pool_row_truncation ⟨0, "NAME SIZE CAP FREE HEALTH\ntank 1T", ""⟩
    "NAME SIZE CAP FREE HEALTH" ["tank 1T"] (by decide) (by decide)

/-- C2 counterexample: a `zpool list` invocation exiting with status 1 does not
raise; `get_zpool_usage` parses whatever output was produced. -/
theorem pool_exit_status_counterexample :
    (1 : Int) ≠ 0 ∧
    get_zpool_usage ⟨1, "NAME\ntank", ""⟩ = Except.ok [("tank", [("name", "tank")])] := by
  refine ⟨by decide, ?_⟩
  rfl

/-- C2 (amended): the job query and job run invocations raise a fatal error on
every non-zero exit status, but the pool-list invocation never inspects the
exit status: its result depends only on the captured stdout, so output is
parsed no matter how the tool exited. -/
theorem external_tool_exit_status (decode : String → Except PyErr (List Repl))
    (r : SubprocResult) (h : r.returncode ≠ 0) :
    query_replications decode r = Except.error (PyErr.processError r.returncode) ∧
    start_replication r = Except.error (PyErr.processError r.returncode) ∧
    ∀ r' : SubprocResult, r'.stdout = r.stdout → get_zpool_usage r' = get_zpool_usage r := by
  refine ⟨?_, ?_, ?_⟩
  · unfold query_replications
    rw [if_pos h]
  · unfold start_replication
    rw [if_pos h]
  · intro r' hs
    unfold get_zpool_usage
    rw [hs]

/-- C2 witness: exit status 1 with the same stdout as a clean run. -/
theorem external_tool_exit_status_witness :
    query_replications (fun _ => Except.ok []) ⟨1, "NAME\ntank", ""⟩ =
      Except.error (PyErr.processError 1) ∧
    start_replication ⟨1, "NAME\ntank", ""⟩ = Except.error (PyErr.processError 1) ∧
    ∀ r' : SubprocResult, r'.stdout = (⟨1, "NAME\ntank", ""⟩ : SubprocResult).stdout →
      get_zpool_usage r' = get_zpool_usage ⟨1, "NAME\ntank", ""⟩ :=
  external_tool_exit_status (fun _ => Except.ok []) ⟨1, "NAME\ntank", ""⟩ (by decide)

theorem string_eq_empty_of_data (b : String) (h : b.data = []) : b = "" := by
  cases b
  cases h
  rfl

theorem string_append_ne_empty_right (a b : String) (hb : b ≠ "") : a ++ b ≠ "" := by
  intro h
  apply hb
  have hd : (a ++ b).data = [] := by rw [h]
  rw [String.data_append] at hd
  exact string_eq_empty_of_data b (List.append_eq_nil.mp hd).2

theorem string_append_ne_empty_left (a b : String) (ha : a ≠ "") : a ++ b ≠ "" := by
  intro h
  apply ha
  have hd : (a ++ b).data = [] := by rw [h]
  rw [String.data_append] at hd
  exact string_eq_empty_of_data a (List.append_eq_nil.mp hd).1

theorem time_components_ne_nil (s : ℚ) : time_components s ≠ [] := by
  by_cases h1 : fmt_hours s > 0 <;> by_cases h2 : fmt_minutes s > 0 <;>
    simp [time_components, h1, h2]

theorem mem_time_components_ne_empty (s : ℚ) (c : String)
    (hc : c ∈ time_components s) : c ≠ "" := by
  have hh : ¬ (toString (fmt_hours s) ++ " hours" = "") :=
    string_append_ne_empty_right _ _ (by decide)
  have hm : ¬ (toString (fmt_minutes s) ++ " minutes" = "") :=
    string_append_ne_empty_right _ _ (by decide)
  have hs : ¬ (fmtF1 (fmt_secs s) ++ " seconds" = "") :=
    string_append_ne_empty_right _ _ (by decide)
  by_cases h1 : fmt_hours s > 0 <;> by_cases h2 : fmt_minutes s > 0 <;>
    by_cases h3 : fmt_secs s > 0 <;>
    simp [time_components, h1, h2, h3] at hc <;>
    rcases hc with hc | hc | hc <;> simp_all

theorem py_join_shift (sep : String) (l : List String) :
    ∀ (p b : String),
      l.foldl (fun acc x => acc ++ sep ++ x) (p ++ b) =
        p ++ l.foldl (fun acc x => acc ++ sep ++ x) b := by
  induction l with
  | nil => intro p b; rfl
  | cons x l ih =>
    intro p b
    simp only [List.foldl_cons]
    have hx : p ++ b ++ sep ++ x = p ++ (b ++ sep ++ x) := by
      simp only [String.append_assoc]
    rw [hx, ih]

theorem py_join_cons (sep a : String) (l : List String) (hl : l ≠ []) :
    py_join sep (a :: l) = a ++ sep ++ py_join sep l := by
  cases l with
  | nil => exact absurd rfl hl
  | cons b rest =>
    show rest.foldl (fun acc x => acc ++ sep ++ x) (a ++ sep ++ b) =
      a ++ sep ++ rest.foldl (fun acc x => acc ++ sep ++ x) b
    rw [py_join_shift sep rest (a ++ sep) b]

theorem join_eq_spec_join : ∀ tc : List String, tc ≠ [] →
    (if tc.length > 1 then py_join ", " tc.dropLast ++ " and " ++ tc.getLastD ""
     else tc.headD "") = spec_join tc := by
  intro tc
  induction tc with
  | nil => intro h; exact absurd rfl h
  | cons a rest ih =>
    intro _
    cases rest with
    | nil => rfl
    | cons b rest2 =>
      cases rest2 with
      | nil => rfl
      | cons c rest3 =>
        have hrec := ih (by simp)
        have hlen : (b :: c :: rest3).length > 1 := by simp
        rw [if_pos hlen] at hrec
        have hlen2 : (a :: b :: c :: rest3).length > 1 := by simp
        rw [if_pos hlen2]
        have hdl : (a :: b :: c :: rest3).dropLast = a :: (b :: c :: rest3).dropLast := rfl
        have hgl : (a :: b :: c :: rest3).getLastD "" = (b :: c :: rest3).getLastD "" := rfl
        have hdlne : (b :: c :: rest3).dropLast ≠ [] := by
          simp [List.dropLast_cons_of_ne_nil]
        rw [hdl, hgl, py_join_cons _ _ _ hdlne]
        show a ++ ", " ++ py_join ", " (b :: c :: rest3).dropLast ++ " and " ++
            (b :: c :: rest3).getLastD "" =
          a ++ ", " ++ spec_join (b :: c :: rest3)
        rw [← hrec]
        simp only [String.append_assoc]

theorem format_time_eq_spec_join (s : ℚ) :
    format_time s = spec_join (time_components s) := by
  unfold format_time
  exact join_eq_spec_join (time_components s) (time_components_ne_nil s)

theorem fmt_remainder_nonneg (s : ℚ) : 0 ≤ fmt_remainder s := by
  unfold fmt_remainder fmt_hours
  have h := Int.floor_le (s / 3600)
  have hs : 3600 * (s / 3600) = s := by ring
  linarith

theorem fmt_remainder_lt (s : ℚ) : fmt_remainder s < 3600 := by
  unfold fmt_remainder fmt_hours
  have h := Int.lt_floor_add_one (s / 3600)
  have hs : 3600 * (s / 3600) = s := by ring
  push_cast at h
  linarith

theorem fmt_secs_nonneg (s : ℚ) : 0 ≤ fmt_secs s := by
  unfold fmt_secs fmt_minutes
  have h := Int.floor_le (fmt_remainder s / 60)
  have hs : 60 * (fmt_remainder s / 60) = fmt_remainder s := by ring
  linarith

theorem fmt_secs_lt (s : ℚ) : fmt_secs s < 60 := by
  unfold fmt_secs fmt_minutes
  have h := Int.lt_floor_add_one (fmt_remainder s / 60)
  have hs : 60 * (fmt_remainder s / 60) = fmt_remainder s := by ring
  push_cast at h
  linarith

theorem fmt_hours_nonneg (s : ℚ) (hs : 0 ≤ s) : 0 ≤ fmt_hours s :=
  Int.floor_nonneg.mpr (div_nonneg hs (by norm_num))

theorem fmt_minutes_nonneg (s : ℚ) : 0 ≤ fmt_minutes s :=
  Int.floor_nonneg.mpr (div_nonneg (fmt_remainder_nonneg s) (by norm_num))

theorem fmt_sum (s : ℚ) :
    3600 * (fmt_hours s : ℚ) + 60 * (fmt_minutes s : ℚ) + fmt_secs s = s := by
  unfold fmt_secs fmt_remainder
  ring

/-- C7: `format_time` applied to input exactly zero produces the seconds
component "0.0 seconds"; for every non-negative input the result is never the
empty string, and whenever both the hours and minutes components are zero the
seconds component is emitted even if it is zero. -/
theorem format_time_zero_seconds (s : ℚ) (hs : 0 ≤ s) :
    format_time 0 = "0.0 seconds" ∧
    format_time s ≠ "" ∧
    (fmt_hours s = 0 → fmt_minutes s = 0 →
      time_components s = [fmtF1 (fmt_secs s) ++ " seconds"]) := by
  refine ⟨by decide, ?_, ?_⟩
  · rw [format_time_eq_spec_join]
    cases htc : time_components s with
    | nil => exact absurd htc (time_components_ne_nil s)
    | cons c rest =>
      cases rest with
      | nil =>
        show c ≠ ""
        exact mem_time_components_ne_empty s c (htc ▸ List.mem_cons_self c [])
      | cons c2 rest2 =>
        cases rest2 with
        | nil =>
          show c ++ " and " ++ c2 ≠ ""
          exact string_append_ne_empty_right _ _
            (mem_time_components_ne_empty s c2 (htc ▸ by simp))
        | cons c3 rest3 =>
          show c ++ ", " ++ spec_join (c2 :: c3 :: rest3) ≠ ""
          exact string_append_ne_empty_left _ _
            (string_append_ne_empty_right c ", " (by decide))
  · intro h1 h2
    simp [time_components, h1, h2]

/-- C7 witness: the zero-duration edge case itself. -/
theorem format_time_zero_seconds_witness :
    format_time 0 = "0.0 seconds" ∧
    format_time 0 ≠ "" ∧
    (fmt_hours 0 = 0 → fmt_minutes 0 = 0 →
      time_components 0 = [fmtF1 (fmt_secs 0) ++ " seconds"]) :=
  format_time_zero_seconds 0 (by decide)

/-- C8 counterexample: at input exactly 0 every component (hours, minutes,
seconds) is zero, yet the formatter emits the zero-valued seconds component —
so the output does not list exactly the nonzero components. -/
theorem format_time_zero_lists_zero_component :
    time_components 0 = ["0.0 seconds"] ∧ fmt_hours 0 = 0 ∧ fmt_minutes 0 = 0 ∧
    fmt_secs 0 = 0 ∧ nonzero_components 0 = [] ∧ format_time 0 = "0.0 seconds" := by
  decide

/-- C8 (amended): for every positive input the duration formatter lists
exactly the nonzero components among hours, minutes and seconds, joined with
commas and a final "and"; the magnitudes of the components sum back to the
input exactly, and `format_time 90` is precisely "1 minutes and 30.0 seconds".
At input exactly zero the zero-valued seconds component is emitted as well
(see the counterexample). -/
theorem format_time_lists_nonzero_components (s : ℚ) (hs : 0 < s) :
    time_components s = nonzero_components s ∧
    3600 * (fmt_hours s : ℚ) + 60 * (fmt_minutes s : ℚ) + fmt_secs s = s ∧
    format_time s = spec_join (time_components s) ∧
    format_time 90 = "1 minutes and 30.0 seconds" := by
  refine ⟨?_, fmt_sum s, format_time_eq_spec_join s, by decide⟩
  by_cases h3 : fmt_secs s > 0
  · by_cases h1 : fmt_hours s > 0 <;> by_cases h2 : fmt_minutes s > 0 <;>
      simp [time_components, nonzero_components, h1, h2, h3]
  · have hsec : fmt_secs s = 0 := le_antisymm (not_lt.mp h3) (fmt_secs_nonneg s)
    by_cases h1 : fmt_hours s > 0
    · by_cases h2 : fmt_minutes s > 0 <;>
        simp [time_components, nonzero_components, h1, h2, h3]
    · have h2 : fmt_minutes s > 0 := by
        by_contra h2
        have hh : fmt_hours s = 0 := le_antisymm (not_lt.mp h1) (fmt_hours_nonneg s hs.le)
        have hm : fmt_minutes s = 0 := le_antisymm (not_lt.mp h2) (fmt_minutes_nonneg s)
        have hsum := fmt_sum s
        rw [hh, hm, hsec] at hsum
        norm_num at hsum
        exact absurd hsum.symm (ne_of_gt hs)
      simp [time_components, nonzero_components, h1, h2, h3]

/-- C8 witness: the spec's `format(90)` example. -/
theorem format_time_lists_nonzero_components_witness :
    time_components 90 = nonzero_components 90 ∧
    3600 * (fmt_hours 90 : ℚ) + 60 * (fmt_minutes 90 : ℚ) + fmt_secs 90 = 90 ∧
    format_time 90 = spec_join (time_components 90) ∧
    format_time 90 = "1 minutes and 30.0 seconds" :=
  format_time_lists_nonzero_components 90 (by decide)

/-- C3: when the list-running query observes a non-empty result exactly N
times and then an empty one, the completion wait performs exactly N sleeping
polls of the fixed 5-unit interval and returns at the first query reporting no
RUNNING job, leaving the rest of the query script unconsumed. -/
theorem polling_terminates (rs : List (List Repl)) (e : List Repl) (rest : List (List Repl))
    (hrs : ∀ q ∈ rs, get_running_replications q ≠ [])
    (he : get_running_replications e = []) :
    wait_for_running_replications (rs ++ e :: rest) =
      some (List.replicate rs.length 5, rest) := by
  induction rs with
  | nil =>
    simp [wait_for_running_replications, he]
  | cons q rs ih =>
    have hq : get_running_replications q ≠ [] := hrs q (List.mem_cons_self _ _)
    have hrs' : ∀ x ∈ rs, get_running_replications x ≠ [] := fun x hx =>
      hrs x (List.mem_cons_of_mem _ hx)
    have hlen : (get_running_replications q).length > 0 := List.length_pos.mpr hq
    show wait_for_running_replications (q :: (rs ++ e :: rest)) = _
    unfold wait_for_running_replications
    rw [if_pos hlen, ih hrs']
    simp [List.replicate]

/-- C3 witness: two polls observe a RUNNING job, the third observes none. -/
theorem polling_terminates_witness :
    wait_for_running_replications
      ([[⟨1, "repl", "RUNNING"⟩], [⟨1, "repl", "RUNNING"⟩]] ++
        [⟨1, "repl", "FINISHED"⟩] :: [[⟨2, "other", "RUNNING"⟩]]) =
      some (List.replicate 2 5, [[⟨2, "other", "RUNNING"⟩]]) :=
  polling_terminates [[⟨1, "repl", "RUNNING"⟩], [⟨1, "repl", "RUNNING"⟩]]
    [⟨1, "repl", "FINISHED"⟩] [[⟨2, "other", "RUNNING"⟩]] (by decide) (by decide)

theorem run_jobs_structure : ∀ (reps : List Repl) (script : List (List Repl))
    (evs : List Event) (rest : List (List Repl)),
    run_jobs reps script = some (evs, rest) →
    ∃ ws : List (List Event),
      ws.length = reps.length ∧
      (∀ w ∈ ws, ∀ ev ∈ w, ∃ d, ev = Event.sleep d) ∧
      evs = ((reps.zip ws).map (fun p => Event.startRepl p.1.id :: p.2)).flatten := by
  intro reps
  induction reps with
  | nil =>
    intro script evs rest h
    simp only [run_jobs, Option.some.injEq, Prod.mk.injEq] at h
    exact ⟨[], rfl, by simp, by simp [← h.1]⟩
  | cons r rs ih =>
    intro script evs rest h
    unfold run_jobs at h
    cases hw : wait_for_running_replications script with
    | none =>
      simp only [hw] at h
      exact Option.noConfusion h
    | some pr =>
      obtain ⟨sleeps, rem⟩ := pr
      simp only [hw] at h
      cases hr : run_jobs rs rem with
      | none =>
        simp only [hr] at h
        exact Option.noConfusion h
      | some pr2 =>
        obtain ⟨evs2, rest2⟩ := pr2
        simp only [hr, Option.some.injEq, Prod.mk.injEq] at h
        obtain ⟨ha, _⟩ := h
        obtain ⟨ws, hlen, hsleep, hevs⟩ := ih rem evs2 rest2 hr
        refine ⟨sleeps.map Event.sleep :: ws, by simp [hlen], ?_, ?_⟩
        · intro w hw' ev hev
          rcases List.mem_cons.mp hw' with h' | h'
          · subst h'
            rcases List.mem_map.mp hev with ⟨d, _, hd⟩
            exact ⟨d, hd.symm⟩
          · exact hsleep w h' ev hev
        · rw [← ha]
          simp [hevs]

theorem run_jobs_events (reps : List Repl) (script : List (List Repl))
    (evs : List Event) (rest : List (List Repl))
    (h : run_jobs reps script = some (evs, rest)) :
    ∀ ev ∈ evs, (∃ i, ev = Event.startRepl i) ∨ (∃ d, ev = Event.sleep d) := by
  intro ev hev
  obtain ⟨ws, _, hsleep, hevs⟩ := run_jobs_structure reps script evs rest h
  rw [hevs, List.mem_flatten] at hev
  obtain ⟨l, hl, hevl⟩ := hev
  rw [List.mem_map] at hl
  obtain ⟨p, hp, hlp⟩ := hl
  rw [← hlp] at hevl
  rcases List.mem_cons.mp hevl with h' | h'
  · exact Or.inl ⟨p.1.id, h'⟩
  · exact Or.inr (hsleep p.2 (List.of_mem_zip hp).2 ev h')

theorem py_main_ok_inversion (env : Env) (f : Final)
    (h : py_main env = some (Except.ok f)) :
    ∃ reps script jobEvents rest flds,
      env.script = reps :: script ∧
      run_jobs reps script = some (jobEvents, rest) ∧
      lookupFields env = Except.ok flds ∧
      f = mkFinal env reps jobEvents flds := by
  unfold py_main at h
  split at h
  · exact absurd h (by simp)
  · split at h
    · exact absurd h (by simp)
    · split at h
      · exact absurd h (by simp)
      · simp only [Option.some.injEq, Except.ok.injEq] at h
        rename_i x1 reps script hsc x2 jobEvents rest hr x3 flds hl
        exact ⟨reps, script, jobEvents, rest, flds, hsc, hr, hl, h.symm⟩

/-- C4: after all jobs finish, the orchestrator computes the elapsed time and
sleeps exactly `max 0 (MIN_EXECUTION_TIME - elapsed)` immediately before the
shutdown-gate check: when `elapsed < MIN_EXECUTION_TIME` the top-up sleep is
exactly the remaining delta, and when `elapsed ≥ MIN_EXECUTION_TIME` it is
zero (no extra wait). -/
theorem minimum_duration_floor (env : Env) (f : Final)
    (h : py_main env = some (Except.ok f)) :
    ∃ pre post d,
      f.trace = pre ++ [Event.sleep d, Event.checkNoShutdown] ++ post ∧
      d = max 0 (env.min_execution_time - sleepSum pre) ∧
      (sleepSum pre < env.min_execution_time → d = env.min_execution_time - sleepSum pre) ∧
      (env.min_execution_time ≤ sleepSum pre → d = 0) := by
  obtain ⟨reps, script, jobEvents, rest, flds, hsc, hr, hl, hf⟩ :=
    py_main_ok_inversion env f h
  refine ⟨jobEvents,
    (match env.discord_webhook_url with
     | none => []
     | some _ => [Event.notify (mkFinal env reps jobEvents flds).message]) ++
      (if !env.no_shutdown_exists then [Event.shutdown] else []),
    max 0 (env.min_execution_time - sleepSum jobEvents), ?_, rfl, ?_, ?_⟩
  · rw [hf]
    cases hurl : env.discord_webhook_url <;>
      cases hflag : env.no_shutdown_exists <;>
      simp [mkFinal, hurl, hflag, List.append_assoc]
  · intro hlt
    exact max_eq_right (le_of_lt (sub_pos.mpr hlt))
  · intro hle
    exact max_eq_left (sub_nonpos.mpr hle)

/-- C4 witness: the concrete run `envBase` sleeps 5 during the job phase and
tops up by 85 to reach the 90-unit floor. -/
theorem minimum_duration_floor_witness :
    ∃ pre post d,
      mainOutF.trace = pre ++ [Event.sleep d, Event.checkNoShutdown] ++ post ∧
      d = max 0 (envBase.min_execution_time - sleepSum pre) ∧
      (sleepSum pre < envBase.min_execution_time →
        d = envBase.min_execution_time - sleepSum pre) ∧
      (envBase.min_execution_time ≤ sleepSum pre → d = 0) :=
  minimum_duration_floor envBase mainOutF rfl

theorem mkFinal_tail (env : Env) (reps : List Repl) (jobEvents : List Event)
    (flds : Fields) :
    ∃ tail : List Event,
      (mkFinal env reps jobEvents flds).trace = jobEvents ++ tail ∧
      (∀ ev ∈ tail, startIdOf ev = none) ∧
      tail.count Event.checkNoShutdown = 1 ∧
      (Event.shutdown ∈ tail ↔ env.no_shutdown_exists = false) ∧
      ∃ rest2 : List Event,
        tail = Event.sleep (max 0 (env.min_execution_time - sleepSum jobEvents)) ::
          Event.checkNoShutdown :: rest2 := by
  refine ⟨[Event.sleep (max 0 (env.min_execution_time - sleepSum jobEvents)),
      Event.checkNoShutdown] ++
    (match env.discord_webhook_url with
     | none => []
     | some _ => [Event.notify (mkFinal env reps jobEvents flds).message]) ++
    (if !env.no_shutdown_exists then [Event.shutdown] else []), ?_, ?_, ?_, ?_, ?_⟩ <;>
    cases hurl : env.discord_webhook_url <;> cases hflag : env.no_shutdown_exists <;>
      simp [mkFinal, startIdOf, hurl, hflag, List.append_assoc]

theorem mkFinal_message (env : Env) (reps : List Repl) (jobEvents : List Event)
    (flds : Fields) :
    (mkFinal env reps jobEvents flds).message =
      if env.no_shutdown_exists then mkBase reps jobEvents flds
      else mkBase reps jobEvents flds ++ shutdownTrailer := by
  cases hflag : env.no_shutdown_exists <;> simp [mkFinal, hflag]

theorem filterMap_start_flatten (ps : List (Repl × List Event))
    (hps : ∀ p ∈ ps, ∀ ev ∈ p.2, ∃ d, ev = Event.sleep d) :
    ((ps.map (fun p => Event.startRepl p.1.id :: p.2)).flatten).filterMap startIdOf =
      ps.map (fun p => p.1.id) := by
  induction ps with
  | nil => rfl
  | cons p ps ih =>
    have hp : ∀ ev ∈ p.2, ∃ d, ev = Event.sleep d := hps p (List.mem_cons_self _ _)
    have hps' : ∀ q ∈ ps, ∀ ev ∈ q.2, ∃ d, ev = Event.sleep d := fun q hq =>
      hps q (List.mem_cons_of_mem _ hq)
    have hnil : p.2.filterMap startIdOf = [] := List.filterMap_eq_nil.mpr
      (fun ev hev => by obtain ⟨d, hd⟩ := hp ev hev; rw [hd]; rfl)
    simp only [List.map_cons, List.flatten_cons, List.cons_append,
      List.filterMap_cons, List.filterMap_append, hnil, ih hps']
    rfl

/-- C6: the orchestrator processes the jobs of the single initial query
strictly in the order returned: the run-trigger events of the trace are
exactly the queried job ids in order, and the trace decomposes per job into a
trigger followed only by that job's completion-wait sleeps (no trigger occurs
during a wait, and nothing after the job phase triggers a run), so each job is
triggered only after the previous job's wait loop exited. -/
theorem sequential_job_processing (env : Env) (f : Final) (reps : List Repl)
    (script : List (List Repl)) (hscript : env.script = reps :: script)
    (h : py_main env = some (Except.ok f)) :
    f.trace.filterMap startIdOf = reps.map (fun r => r.id) ∧
    ∃ ws : List (List Event), ws.length = reps.length ∧
      (∀ w ∈ ws, ∀ ev ∈ w, ∃ d, ev = Event.sleep d) ∧
      ∃ tail : List Event, (∀ ev ∈ tail, startIdOf ev = none) ∧
        f.trace =
          ((reps.zip ws).map (fun p => Event.startRepl p.1.id :: p.2)).flatten ++ tail := by
  obtain ⟨reps', script', jobEvents, rest, flds, hsc, hr, hl, hf⟩ :=
    py_main_ok_inversion env f h
  rw [hscript] at hsc
  injection hsc with he1 he2
  subst he1
  subst he2
  obtain ⟨ws, hlen, hsleep, hevs⟩ := run_jobs_structure reps script jobEvents rest hr
  obtain ⟨tail, htr, htail, _, _, _⟩ := mkFinal_tail env reps jobEvents flds
  have hzip : ∀ p ∈ reps.zip ws, ∀ ev ∈ p.2, ∃ d, ev = Event.sleep d :=
    fun p hp => hsleep p.2 (List.of_mem_zip hp).2
  constructor
  · rw [hf, htr, List.filterMap_append, hevs, filterMap_start_flatten _ hzip,
      List.filterMap_eq_nil.mpr htail, List.append_nil]
    have hfst : (reps.zip ws).map Prod.fst = reps :=
      List.map_fst_zip reps ws (le_of_eq hlen.symm)
    conv_rhs => rw [← hfst]
    rw [List.map_map]
    rfl
  · exact ⟨ws, hlen, hsleep, tail, htail, by rw [hf, htr, hevs]⟩

/-- C6 witness: the concrete run `envBase` with its single queried job. -/
theorem sequential_job_processing_witness :
    mainOutF.trace.filterMap startIdOf =
      [(⟨1, "repl", "FINISHED"⟩ : Repl)].map (fun r => r.id) ∧
    ∃ ws : List (List Event), ws.length = [(⟨1, "repl", "FINISHED"⟩ : Repl)].length ∧
      (∀ w ∈ ws, ∀ ev ∈ w, ∃ d, ev = Event.sleep d) ∧
      ∃ tail : List Event, (∀ ev ∈ tail, startIdOf ev = none) ∧
        mainOutF.trace =
          (([(⟨1, "repl", "FINISHED"⟩ : Repl)].zip ws).map
            (fun p => Event.startRepl p.1.id :: p.2)).flatten ++ tail :=
  sequential_job_processing envBase mainOutF [⟨1, "repl", "FINISHED"⟩]
    [[⟨1, "repl", "RUNNING"⟩], []] rfl rfl

/-- C1: the `no_shutdown` marker's existence is sampled exactly once per run,
after the minimum-duration top-up sleep; the single sampled boolean decides
both the shutdown action and the "shutting down" trailer.  Running the same
environment with the marker absent versus present: absent yields
`perform_shutdown = true`, the shutdown event, and the trailer appended to the
otherwise identical message; present yields `perform_shutdown = false` and
omits both. -/
theorem shutdown_gate_single_sample (env : Env) (f g : Final)
    (hf : py_main {env with no_shutdown_exists := false} = some (Except.ok f))
    (hg : py_main {env with no_shutdown_exists := true} = some (Except.ok g)) :
    f.perform_shutdown = true ∧ g.perform_shutdown = false ∧
    Event.shutdown ∈ f.trace ∧ Event.shutdown ∉ g.trace ∧
    f.message = g.message ++ shutdownTrailer ∧
    f.trace.count Event.checkNoShutdown = 1 ∧
    g.trace.count Event.checkNoShutdown = 1 ∧
    ∃ pre post d, f.trace = pre ++ [Event.sleep d, Event.checkNoShutdown] ++ post := by
  obtain ⟨repsf, scriptf, jEf, restf, fldsf, hscf, hrf, hlf, hff⟩ :=
    py_main_ok_inversion _ f hf
  obtain ⟨repsg, scriptg, jEg, restg, fldsg, hscg, hrg, hlg, hgg⟩ :=
    py_main_ok_inversion _ g hg
  have hscf' : env.script = repsf :: scriptf := hscf
  have hscg' : env.script = repsg :: scriptg := hscg
  rw [hscf'] at hscg'
  injection hscg' with he1 he2
  subst he1
  subst he2
  have hrf' : run_jobs repsf scriptf = some (jEf, restf) := hrf
  have hrg' : run_jobs repsf scriptf = some (jEg, restg) := hrg
  rw [hrf'] at hrg'
  simp only [Option.some.injEq, Prod.mk.injEq] at hrg'
  obtain ⟨hje, hre⟩ := hrg'
  subst hje
  subst hre
  have hlf' : lookupFields env = Except.ok fldsf := hlf
  have hlg' : lookupFields env = Except.ok fldsg := hlg
  rw [hlf'] at hlg'
  injection hlg' with hfl
  subst hfl
  have hnostart : ∀ ev ∈ jEf, ev ≠ Event.shutdown ∧ ev ≠ Event.checkNoShutdown := by
    intro ev hev
    rcases run_jobs_events repsf scriptf jEf restf hrf ev hev with ⟨i, hi⟩ | ⟨d, hd⟩ <;>
      subst_vars <;> exact ⟨(by intro hc; cases hc), (by intro hc; cases hc)⟩
  obtain ⟨tailf, htrf, _, hcountf, hshutf, hdecompf⟩ :=
    mkFinal_tail {env with no_shutdown_exists := false} repsf jEf fldsf
  obtain ⟨tailg, htrg, _, hcountg, hshutg, _⟩ :=
    mkFinal_tail {env with no_shutdown_exists := true} repsf jEf fldsf
  have hjcount : jEf.count Event.checkNoShutdown = 0 :=
    List.count_eq_zero.mpr (fun hc => (hnostart _ hc).2 rfl)
  have hjshut : Event.shutdown ∉ jEf := fun hc => (hnostart _ hc).1 rfl
  refine ⟨by rw [hff]; rfl, by rw [hgg]; rfl, ?_, ?_, ?_, ?_, ?_, ?_⟩
  · rw [hff, htrf]
    exact List.mem_append_right _ (hshutf.mpr rfl)
  · rw [hgg, htrg]
    intro hc
    rcases List.mem_append.mp hc with hc | hc
    · exact hjshut hc
    · simp at hshutg
      exact hshutg hc
  · rw [hff, hgg, mkFinal_message, mkFinal_message]
    simp
  · rw [hff, htrf, List.count_append, hjcount, hcountf]
  · rw [hgg, htrg, List.count_append, hjcount, hcountg]
  · obtain ⟨rest2, hrest2⟩ := hdecompf
    refine ⟨jEf, rest2, max 0 (env.min_execution_time - sleepSum jEf), ?_⟩
    rw [hff, htrf, hrest2]
    simp

/-- C1 witness: the concrete run `envBase` (marker absent) against the same
environment with the marker present. -/
theorem shutdown_gate_single_sample_witness :
    mainOutF.perform_shutdown = true ∧ mainOutG.perform_shutdown = false ∧
    Event.shutdown ∈ mainOutF.trace ∧ Event.shutdown ∉ mainOutG.trace ∧
    mainOutF.message = mainOutG.message ++ shutdownTrailer ∧
    mainOutF.trace.count Event.checkNoShutdown = 1 ∧
    mainOutG.trace.count Event.checkNoShutdown = 1 ∧
    ∃ pre post d, mainOutF.trace = pre ++ [Event.sleep d, Event.checkNoShutdown] ++ post :=
  shutdown_gate_single_sample envBase mainOutF mainOutG rfl rfl

/-- C9: when no `.env` file exists in the script's directory, the module-level
`load_dotenv()` call raises `FileNotFoundError` and the program aborts before
any replication work, whatever the orchestration inputs — even though the
process environment may already hold every configuration value the script
needs (webhook URL, pool name, minimum execution time). -/
theorem missing_dotenv_aborts (pyfloat : String → Except PyErr ℚ) (fs : FS)
    (env0 : List (String × String)) (orch : OrchInput)
    (hfs : fs.dotenv_exists = false)
    (hkeys : (dictGet env0 "DISCORD_WEBHOOK_URL").isSome ∧
      (dictGet env0 "ZPOOL_NAME").isSome ∧
      (dictGet env0 "MIN_EXECUTION_TIME").isSome) :
    run_program pyfloat fs env0 orch = some (Except.error PyErr.fileNotFoundError) := by
  unfold run_program load_dotenv
  rw [hfs]
  simp

/-- C9 witness: an environment that already carries all three configuration
variables, but no `.env` file. -/
theorem missing_dotenv_aborts_witness :
    run_program (fun _ => Except.ok 90) ⟨false, []⟩
      [("DISCORD_WEBHOOK_URL", "u"), ("ZPOOL_NAME", "tank"), ("MIN_EXECUTION_TIME", "90")]
      ⟨[[⟨1, "repl", "FINISHED"⟩], []], false, ⟨0, "NAME\ntank", ""⟩⟩ =
      some (Except.error PyErr.fileNotFoundError) :=
  missing_dotenv_aborts (fun _ => Except.ok 90) ⟨false, []⟩
    [("DISCORD_WEBHOOK_URL", "u"), ("ZPOOL_NAME", "tank"), ("MIN_EXECUTION_TIME", "90")]
    ⟨[[⟨1, "repl", "FINISHED"⟩], []], false, ⟨0, "NAME\ntank", ""⟩⟩ rfl
    ⟨by decide, by decide, by decide⟩
